import Mathlib

/-!
Verification of the EmotiView sentiment-dashboard core against its
specification.  The embedded definitions model, field by field, the
response-cleaning, normalization, error-classification, chunked batch
submission, CSV export and file-import logic found in
src/services/geminiService.ts and the application component.
-/

namespace EmotiView

/-! ## JSON value model (the result shape of JSON.parse) -/

/-- A parsed JSON value.  Numbers are modelled as rationals (JSON numerals
are finite decimals, all representable exactly). -/
inductive Json where
  | null
  | bool (b : Bool)
  | num (q : Rat)
  | str (s : String)
  | arr (items : List Json)
  | obj (fields : List (String × Json))

/-- The backtick character, obtained from a string literal. -/
def bq : Char := "`".toList.headD ' '

/-- JavaScript-style whitespace test for the characters relevant here
(space, tab, newline, carriage return) as used by String.prototype.trim. -/
def isWsChar (c : Char) : Bool := c = ' ' || c = '\t' || c = '\n' || c = '\r'

/-! ## cleanJsonString (src/services/geminiService.ts lines 65-74) -/

/-- Left-to-right scan performing the global replacement
str.replace of the pattern matching a fenced "json" opener (with optional
newline) or a plain triple-backtick fence, by the empty string.  The first
alternative is tried first at every position, exactly as the regex
alternation does. -/
def stripFences : List Char → List Char
  | [] => []
  | [c] => [c]
  | [c, d] => [c, d]
  | c1 :: c2 :: c3 :: rest =>
    if c1 = bq ∧ c2 = bq ∧ c3 = bq then
      match rest with
      | c4 :: c5 :: c6 :: c7 :: rest2 =>
        if c4 = 'j' ∧ c5 = 's' ∧ c6 = 'o' ∧ c7 = 'n' then
          match rest2 with
          | c8 :: rest3 =>
            if c8 = '\n' then stripFences rest3 else stripFences (c8 :: rest3)
          | [] => []
        else stripFences (c4 :: c5 :: c6 :: c7 :: rest2)
      | rest => stripFences rest
    else c1 :: stripFences (c2 :: c3 :: rest)

/-- String.prototype.trim restricted to the ASCII whitespace characters. -/
def trimChars (s : List Char) : List Char :=
  ((s.dropWhile isWsChar).reverse.dropWhile isWsChar).reverse

/-- String.prototype.indexOf for a single character (as an Option rather
than the -1 sentinel). -/
def firstIdxOf (c : Char) (l : List Char) : Option Nat := l.findIdx? (· = c)

/-- String.prototype.lastIndexOf for a single character. -/
def lastIdxOf (c : Char) (l : List Char) : Option Nat :=
  match l.reverse.findIdx? (· = c) with
  | some k => some (l.length - 1 - k)
  | none => none

/-- String.prototype.substring: clamps both indices to the string length
and swaps them when given in descending order. -/
def jsSubstring (l : List Char) (a b : Nat) : List Char :=
  let a' := min a l.length
  let b' := min b l.length
  if a' ≤ b' then (l.drop a').take (b' - a') else (l.drop b').take (a' - b')

/-- cleanJsonString on character lists: strip the code fences, trim, and
keep the substring between the first open bracket and the last close
bracket when both occur. -/
def cleanJsonChars (s : List Char) : List Char :=
  let clean := trimChars (stripFences s)
  match firstIdxOf '[' clean, lastIdxOf ']' clean with
  | some a, some b => jsSubstring clean a (b + 1)
  | _, _ => clean

/-- The cleanJsonString function of geminiService. -/
def cleanJsonString (s : String) : String := String.mk (cleanJsonChars s.toList)

/-! ## Error taxonomy (GeminiError, src/services/geminiService.ts lines 49-59) -/

inductive ErrCode where
  | AUTH_ERROR
  | RATE_LIMIT
  | SERVER_ERROR
  | SAFETY_BLOCK
  | PARSE_ERROR
  | INVALID_REQUEST
  | UNKNOWN
deriving DecidableEq, Repr

structure GeminiError where
  message : String
  code : ErrCode
  solution : Option String := none
  status : Option Nat := none
deriving DecidableEq, Repr

def MODEL_NAME : String := "gemini-2.5-flash"

/-- The GeminiError thrown when the API key is missing (lines 80-86). -/
def apiKeyMissingError : GeminiError :=
  ⟨"API Key is missing", .AUTH_ERROR,
    some "Please configure your API key in the settings menu.", none⟩

/-- Thrown on an empty candidate list (lines 119-125). -/
def safetyBlockError : GeminiError :=
  ⟨"Analysis blocked by safety filters.", .SAFETY_BLOCK,
    some "The content may violate safety policies (harassment, hate speech, etc.). Try rephrasing the text.", none⟩

/-- Thrown on an empty response text (lines 128-134). -/
def emptyResponseError : GeminiError :=
  ⟨"Received empty response from AI model.", .SERVER_ERROR,
    some "The model returned an empty result. Please try again.", none⟩

/-- Thrown when JSON.parse fails on the cleaned text (lines 140-147). -/
def malformedJsonError : GeminiError :=
  ⟨"Failed to process model response.", .PARSE_ERROR,
    some "The AI returned malformed JSON. This is usually temporary, please retry.", none⟩

/-- Thrown when the parsed value is not an array (lines 149-155). -/
def invalidStructureError : GeminiError :=
  ⟨"Invalid response structure.", .PARSE_ERROR,
    some "Expected a list of results but got something else.", none⟩

/-- The catch-block auth classification (lines 177-184). -/
def invalidKeyError (status : Option Nat) : GeminiError :=
  ⟨"Invalid API Key or Permissions.", .AUTH_ERROR,
    some "Please verify your API key. Ensure it is valid, active, and has access to the Gemini API.", status⟩

/-- The catch-block rate-limit classification (lines 186-193). -/
def rateLimitError : GeminiError :=
  ⟨"Rate limit exceeded.", .RATE_LIMIT,
    some "You are sending requests too quickly. Please wait a moment before trying again, or reduce the batch size.", some 429⟩

/-- The catch-block overload classification (lines 195-202). -/
def serverOverloadedError : GeminiError :=
  ⟨"AI Service Unavailable.", .SERVER_ERROR,
    some "The Gemini service is currently overloaded. Please try again in a few minutes.", some 503⟩

/-- The catch-block 400 classification (lines 204-211). -/
def invalidRequestError : GeminiError :=
  ⟨"Invalid Request.", .INVALID_REQUEST,
    some "The request was malformed. Please check your input text for unsupported characters or format.", some 400⟩

/-- The catch-block 404 classification (lines 213-220). -/
def modelNotFoundError : GeminiError :=
  ⟨"Model Not Found.", .INVALID_REQUEST,
    some ("The model '" ++ MODEL_NAME ++ "' was not found. It may be deprecated or not available in your region."), some 404⟩

/-- The catch-block fallback classification (lines 222-227). -/
def unknownError (status : Option Nat) : GeminiError :=
  ⟨"An unexpected network or API error occurred.", .UNKNOWN,
    some "Check your internet connection and try again. If the issue persists, check the console for logs.", status⟩

/-! ## Substring search (String.prototype.includes) -/

def hasSub (needle : List Char) : List Char → Bool
  | [] => needle.isEmpty
  | c :: t => needle.isPrefixOf (c :: t) || hasSub needle t

def strIncludes (hay needle : String) : Bool := hasSub needle.toList hay.toList

/-- String.prototype.startsWith, on character lists. -/
def strStartsWith (s pre : String) : Bool := pre.toList.isPrefixOf s.toList

/-- String.prototype.endsWith, on character lists. -/
def strEndsWith (s suf : String) : Bool := suf.toList.isSuffixOf s.toList

/-- String.prototype.toLowerCase (simple character lowering). -/
def strToLower (s : String) : String := String.mk (s.toList.map Char.toLower)

/-! ## The catch-block error classifier (lines 168-228).

A caught failure is either a GeminiError thrown inside the try block
(rethrown unchanged, line 171) or an opaque JS error carrying a message
and possibly a status (error.status / error.response.status, line 175). -/

inductive Caught where
  | gemini (e : GeminiError)
  | js (msg : String) (status : Option Nat)

def classifyCatch : Caught → GeminiError
  | .gemini e => e
  | .js msg status =>
    if strIncludes msg "401" || strIncludes msg "403" || strIncludes msg "API key"
        || status == some 401 || status == some 403 then invalidKeyError status
    else if strIncludes msg "429" || strIncludes msg "Quota" || status == some 429 then
      rateLimitError
    else if strIncludes msg "503" || strIncludes msg "Overloaded" || status == some 503 then
      serverOverloadedError
    else if status == some 400 || strIncludes msg "400" then invalidRequestError
    else if status == some 404 || strIncludes msg "404" then modelNotFoundError
    else unknownError status

/-! ## A JSON.parse model

A recursive-descent parser for JSON (objects, arrays, strings with the
common escapes, decimal numbers without exponent notation, booleans,
null), with explicit fuel so that it is structurally recursive and
computable.  Trailing non-whitespace input is rejected, as JSON.parse
does. -/

def lbrace : Char := Char.ofNat 123

def rbrace : Char := Char.ofNat 125

def skipWsL (s : List Char) : List Char := s.dropWhile isWsChar

def parseStringBody : List Char → Option (List Char × List Char)
  | [] => none
  | c :: t =>
    if c = '"' then some ([], t)
    else if c = '\\' then
      match t with
      | [] => none
      | e :: t2 =>
        let dec : Option Char :=
          if e = '"' then some '"'
          else if e = '\\' then some '\\'
          else if e = '/' then some '/'
          else if e = 'n' then some '\n'
          else if e = 't' then some '\t'
          else if e = 'r' then some '\r'
          else none
        match dec with
        | none => none
        | some ch =>
          match parseStringBody t2 with
          | some (body, rest) => some (ch :: body, rest)
          | none => none
    else
      match parseStringBody t with
      | some (body, rest) => some (c :: body, rest)
      | none => none

def digitVal (c : Char) : Option Nat :=
  if '0' ≤ c ∧ c ≤ '9' then some (c.toNat - '0'.toNat) else none

def takeDigits : List Char → (List Nat × List Char)
  | [] => ([], [])
  | c :: t =>
    match digitVal c with
    | some d =>
      let p := takeDigits t
      (d :: p.1, p.2)
    | none => ([], c :: t)

def digitsToNat (ds : List Nat) : Nat := ds.foldl (fun a d => 10 * a + d) 0

def parseNumber (s : List Char) : Option (Rat × List Char) :=
  let p : Bool × List Char :=
    match s with
    | c :: t => if c = '-' then (true, t) else (false, s)
    | [] => (false, [])
  let ds := takeDigits p.2
  if ds.1.isEmpty then none
  else
    let intPart : Rat := (digitsToNat ds.1 : Nat)
    let next : Option (Rat × List Char) :=
      match ds.2 with
      | c :: t =>
        if c = '.' then
          let fs := takeDigits t
          if fs.1.isEmpty then none
          else some (intPart + (digitsToNat fs.1 : Rat) / ((10 : Rat) ^ fs.1.length), fs.2)
        else some (intPart, ds.2)
      | [] => some (intPart, [])
    match next with
    | some (v, r) => some (if p.1 then -v else v, r)
    | none => none

/-- Frames of the fuel-driven parser: a value, the tail of an array after
its opening bracket, or the tail of an object after its opening brace. -/
inductive PFrame where
  | pv (s : List Char)
  | pa (acc : List Json) (s : List Char)
  | po (acc : List (String × Json)) (s : List Char)

def parseF : Nat → PFrame → Option (Json × List Char)
  | 0, _ => none
  | fuel + 1, .pv s0 =>
    match skipWsL s0 with
    | [] => none
    | c :: t =>
      if c = lbrace then
        match skipWsL t with
        | d :: t2 => if d = rbrace then some (Json.obj [], t2) else parseF fuel (.po [] (d :: t2))
        | [] => none
      else if c = '[' then
        match skipWsL t with
        | d :: t2 => if d = ']' then some (Json.arr [], t2) else parseF fuel (.pa [] (d :: t2))
        | [] => none
      else if c = '"' then
        match parseStringBody t with
        | some (body, rest) => some (Json.str (String.mk body), rest)
        | none => none
      else if c = 't' then
        match t with
        | 'r' :: 'u' :: 'e' :: r => some (Json.bool true, r)
        | _ => none
      else if c = 'f' then
        match t with
        | 'a' :: 'l' :: 's' :: 'e' :: r => some (Json.bool false, r)
        | _ => none
      else if c = 'n' then
        match t with
        | 'u' :: 'l' :: 'l' :: r => some (Json.null, r)
        | _ => none
      else
        match parseNumber (c :: t) with
        | some (q, r) => some (Json.num q, r)
        | none => none
  | fuel + 1, .pa acc s =>
    match parseF fuel (.pv s) with
    | some (v, r) =>
      match skipWsL r with
      | c :: r2 =>
        if c = ']' then some (Json.arr (acc ++ [v]), r2)
        else if c = ',' then parseF fuel (.pa (acc ++ [v]) r2)
        else none
      | [] => none
    | none => none
  | fuel + 1, .po acc s =>
    match skipWsL s with
    | c :: t =>
      if c = '"' then
        match parseStringBody t with
        | some (key, r) =>
          match skipWsL r with
          | d :: r2 =>
            if d = ':' then
              match parseF fuel (.pv r2) with
              | some (v, r3) =>
                match skipWsL r3 with
                | e :: r4 =>
                  if e = rbrace then some (Json.obj (acc ++ [(String.mk key, v)]), r4)
                  else if e = ',' then parseF fuel (.po (acc ++ [(String.mk key, v)]) r4)
                  else none
                | [] => none
              | none => none
            else none
          | [] => none
        | none => none
      else none
    | [] => none

/-- The JSON.parse model: parse one value and require only whitespace to
remain. -/
def jsonParse (s : String) : Option Json :=
  match parseF (2 * s.length + 4) (.pv s.toList) with
  | some (v, rest) => if (skipWsL rest).isEmpty then some v else none
  | none => none

/-! ## The response normalizer (lines 157-166) -/

/-- JavaScript truthiness of a parsed JSON value. -/
def truthy : Json → Bool
  | .null => false
  | .bool b => b
  | .num q => q ≠ 0
  | .str s => s ≠ ""
  | .arr _ => true
  | .obj _ => true

/-- The v || d idiom. -/
def jsOr (v d : Json) : Json := if truthy v then v else d

/-- Property access item.k under JavaScript semantics: reading a property
of null throws a TypeError (modelled by its message); reading a missing
property, or any property of a non-object value, yields undefined
(modelled as Json.null, which agrees with undefined on every use made of
it here: truthiness, the typeof-number test and Array.isArray).  For
duplicate keys JSON.parse keeps the last occurrence. -/
def propGet (item : Json) (k : String) : Except String Json :=
  match item with
  | .null => .error ("Cannot read properties of null (reading '" ++ k ++ "')")
  | .obj fields =>
    match fields.reverse.find? (fun p => p.1 == k) with
    | some p => .ok p.2
    | none => .ok .null
  | _ => .ok .null

/-- The source file's neutral-face emoji literal (its exact bytes decode
to this four-character string). -/
def neutralFaceEmoji : String := "üòê"

/-- The normalized record produced for each array element.  Field types
follow the runtime values: apart from the sarcasm flag (coerced with !!)
and the confidence (guarded by a typeof-number test), every field keeps
whatever JSON value was present when it is truthy. -/
structure NormRec where
  sentiment : Json
  emotion : Json
  emotionEmoji : Json
  isSarcastic : Bool
  confidence : Rat
  keywords : List Json
  explanation : Json

/-- The typeof-number guard on the confidence field:
typeof item.confidence === 'number' ? item.confidence : 0.5. -/
def confCoerce : Json → Rat
  | Json.num q => q
  | _ => (1 : Rat) / 2

/-- The Array.isArray guard on the keywords field. -/
def keywordsCoerce : Json → List Json
  | Json.arr l => l
  | _ => []

/-- Field-by-field coercion of one parsed array element (lines 158-166).
Property reads happen in the order the object literal writes them, so a
null element fails on the first read. -/
def normalizeItem (item : Json) : Except String NormRec := do
  let s ← propGet item "sentiment"
  let e ← propGet item "emotion"
  let em ← propGet item "emotionEmoji"
  let sarc ← propGet item "isSarcastic"
  let conf ← propGet item "confidence"
  let kw ← propGet item "keywords"
  let ex ← propGet item "explanation"
  pure
    { sentiment := jsOr s (Json.str "Neutral")
      emotion := jsOr e (Json.str "Neutral")
      emotionEmoji := jsOr em (Json.str neutralFaceEmoji)
      isSarcastic := truthy sarc
      confidence := confCoerce conf
      keywords := keywordsCoerce kw
      explanation := jsOr ex (Json.str "No explanation provided.") }

/-- parsedData.map over the normalizer; a thrown TypeError aborts the map
(and is caught by the enclosing catch block). -/
def normalizeAll (items : List Json) : Except String (List NormRec) :=
  items.mapM normalizeItem

/-! ## analyzeSentimentBatch (lines 76-229)

The remote generateContent call is abstracted as an oracle: it either
throws a transport error or returns a response carrying an optional
candidate list and an optional text. -/

structure ApiResponse where
  candidates : Option (List Unit)
  text : Option String

inductive ApiOutcome where
  | throws (msg : String) (status : Option Nat)
  | returns (resp : ApiResponse)

/-- The !response.candidates || response.candidates.length === 0 test. -/
def candidatesEmpty : Option (List Unit) → Bool
  | none => true
  | some l => l.isEmpty

/-- The body of the try block (lines 107-166), producing either the
normalized records or the caught failure. -/
def tryBlock (oracle : ApiOutcome) : Except Caught (List NormRec) :=
  match oracle with
  | .throws msg status => .error (.js msg status)
  | .returns resp =>
    if candidatesEmpty resp.candidates then .error (.gemini safetyBlockError)
    else
      match resp.text with
      | none => .error (.gemini emptyResponseError)
      | some t =>
        if t = "" then .error (.gemini emptyResponseError)
        else
          match jsonParse (cleanJsonString t) with
          | none => .error (.gemini malformedJsonError)
          | some v =>
            match v with
            | Json.arr items =>
              match normalizeAll items with
              | .ok recs => .ok recs
              | .error m => .error (.js m none)
            | _ => .error (.gemini invalidStructureError)

/-- analyzeSentimentBatch: the missing-key guard, the empty-input early
return, then the try/catch around the remote call. -/
def analyzeSentimentBatch (texts : List String) (apiKey : String)
    (oracle : ApiOutcome) : Except GeminiError (List NormRec) :=
  if apiKey = "" then .error apiKeyMissingError
  else if texts.length = 0 then .ok []
  else
    match tryBlock oracle with
    | .ok r => .ok r
    | .error c => .error (classifyCatch c)

/-! ## The application batch loop (processBatch in the App component) -/

def CHUNK_SIZE : Nat := 8

/-- The for-loop chunking texts.slice(i, i + CHUNK_SIZE) for
i = 0, 8, 16, …; fuel-driven (the fuel bounds the iteration count by the
list length) so the definition is structural and computable. -/
def chunksF : Nat → List String → List (List String)
  | 0, _ => []
  | _, [] => []
  | fuel + 1, c :: t => ((c :: t).take CHUNK_SIZE) :: chunksF fuel ((c :: t).drop CHUNK_SIZE)

def chunksOf (texts : List String) : List (List String) := chunksF texts.length texts

/-- BatchProgress (src/types.ts lines 27-32). -/
structure BatchProgress where
  total : Nat
  processed : Nat
  errors : Nat
  isProcessing : Bool
deriving DecidableEq, Repr

def ErrCode.str : ErrCode → String
  | .AUTH_ERROR => "AUTH_ERROR"
  | .RATE_LIMIT => "RATE_LIMIT"
  | .SERVER_ERROR => "SERVER_ERROR"
  | .SAFETY_BLOCK => "SAFETY_BLOCK"
  | .PARSE_ERROR => "PARSE_ERROR"
  | .INVALID_REQUEST => "INVALID_REQUEST"
  | .UNKNOWN => "UNKNOWN"

/-- ErrorDetails (src/types.ts lines 34-40); the code field is a plain
string in the source, so classified codes are rendered with ErrCode.str
and the ALL_FAILED marker is the bare string the component writes. -/
structure ErrorDetails where
  title : String
  message : String
  solution : Option String := none
  code : Option String := none
  status : Option Nat := none
deriving DecidableEq, Repr

/-- One row of the result collection as the batch loop builds it: the
normalized record with the generated id, the source text chunk[idx] and
the timestamp (the object spread is modelled by nesting the record). -/
structure AnalysisResultDyn where
  id : String
  text : String
  core : NormRec
  timestamp : Nat

/-- The state the processBatch loop mutates: the result collection, the
progress counters, the stored credential and the two error flags. -/
structure BatchSt where
  results : List AnalysisResultDyn
  progress : BatchProgress
  apiKey : String
  authErrorOccurred : Bool
  criticalError : Option GeminiError

/-- newResults of one successful chunk (the id generator and clock are
abstracted as parameters; chunk.getD idx "" stands for chunk[idx]). -/
def mkChunkResults (genId : Nat → Nat → String) (now k : Nat)
    (chunk : List String) (recs : List NormRec) : List AnalysisResultDyn :=
  recs.enum.map (fun p => ⟨genId k p.1, chunk.getD p.1 "", p.2, now⟩)

/-- State update for a successful chunk: prepend the new results and
advance processed by the chunk size, capped at the total. -/
def chunkSuccessSt (genId : Nat → Nat → String) (now k : Nat)
    (chunk : List String) (recs : List NormRec) (st : BatchSt) : BatchSt :=
  { st with
    results := mkChunkResults genId now k chunk recs ++ st.results
    progress := { st.progress with
      processed := min (st.progress.processed + chunk.length) st.progress.total } }

/-- State update for a failed chunk whose error is not an auth error:
add the chunk size to the error counter and continue. -/
def chunkFailSt (chunk : List String) (st : BatchSt) : BatchSt :=
  { st with progress := { st.progress with errors := st.progress.errors + chunk.length } }

/-- State update for an auth failure: set the halt flag, clear the stored
credential and record the critical error (the loop then breaks). -/
def chunkAuthSt (e : GeminiError) (st : BatchSt) : BatchSt :=
  { st with authErrorOccurred := true, apiKey := "", criticalError := some e }

/-- The chunk loop (lines 119-157 of the component).  The outcome of the
k-th analyzeSentimentBatch call is supplied by the outcomes oracle. -/
def runChunks (genId : Nat → Nat → String) (now : Nat)
    (outcomes : Nat → Except GeminiError (List NormRec)) :
    List (List String) → Nat → BatchSt → BatchSt
  | [], _, st => st
  | chunk :: rest, k, st =>
    if st.authErrorOccurred then st
    else
      match outcomes k with
      | .ok recs =>
        runChunks genId now outcomes rest (k + 1) (chunkSuccessSt genId now k chunk recs st)
      | .error e =>
        if e.code = .AUTH_ERROR then chunkAuthSt e st
        else runChunks genId now outcomes rest (k + 1) (chunkFailSt chunk st)

/-- The successive states after each iteration of the chunk loop — every
point of the batch cycle after the initial state. -/
def traceChunks (genId : Nat → Nat → String) (now : Nat)
    (outcomes : Nat → Except GeminiError (List NormRec)) :
    List (List String) → Nat → BatchSt → List BatchSt
  | [], _, _ => []
  | chunk :: rest, k, st =>
    if st.authErrorOccurred then []
    else
      match outcomes k with
      | .ok recs =>
        chunkSuccessSt genId now k chunk recs st ::
          traceChunks genId now outcomes rest (k + 1) (chunkSuccessSt genId now k chunk recs st)
      | .error e =>
        if e.code = .AUTH_ERROR then [chunkAuthSt e st]
        else
          chunkFailSt chunk st ::
            traceChunks genId now outcomes rest (k + 1) (chunkFailSt chunk st)

/-- Whether an analyzeSentimentBatch outcome is an AUTH_ERROR-coded
failure (the condition of the halting branch, line 144). -/
def isAuthOutcome : Except GeminiError (List NormRec) → Bool
  | .error e => decide (e.code = ErrCode.AUTH_ERROR)
  | .ok _ => false

/-- The chunk indices the loop actually submits (one call per iteration;
an auth failure breaks before any later submission). -/
def submittedChunks (outcomes : Nat → Except GeminiError (List NormRec)) :
    List (List String) → Nat → List Nat
  | [], _ => []
  | _ :: rest, k =>
    k ::
      (match outcomes k with
      | .error e => if e.code = .AUTH_ERROR then [] else submittedChunks outcomes rest (k + 1)
      | .ok _ => submittedChunks outcomes rest (k + 1))

/-- The outcome of one processBatch invocation: the final loop state and
the surfaced error panel, if any. -/
structure BatchOut where
  st : BatchSt
  errorDetails : Option ErrorDetails

/-- The initial state of a cycle (line 112 resets the counters). -/
def initBatchSt (texts : List String) (apiKey : String)
    (prevResults : List AnalysisResultDyn) : BatchSt :=
  ⟨prevResults, ⟨texts.length, 0, 0, true⟩, apiKey, false, none⟩

/-- The final loop state of one cycle. -/
def batchFinalSt (genId : Nat → Nat → String) (now : Nat)
    (outcomes : Nat → Except GeminiError (List NormRec)) (texts : List String)
    (apiKey : String) (prevResults : List AnalysisResultDyn) : BatchSt :=
  runChunks genId now outcomes (chunksOf texts) 0 (initBatchSt texts apiKey prevResults)

/-- The post-loop error panel (component lines 159-183): a critical auth
error is terminal; otherwise the all-failed check compares the input
count against staleErrors, the error count captured from the render the
callback closed over — the source reads this stale value, not the final
counter. -/
def batchDetails (final : BatchSt) (texts : List String) (staleErrors : Nat) :
    Option ErrorDetails :=
  match final.criticalError with
  | some e => some ⟨"Authentication Failed", e.message, e.solution, some e.code.str, e.status⟩
  | none =>
    if final.authErrorOccurred then
      some ⟨"Auth Error", "Invalid API Key", some "Check settings.", none, none⟩
    else
      if ((texts.length : Int) - (staleErrors : Int)) = 0 ∧ texts.length > 0 then
        some ⟨"Processing Failed", "All items failed to process.",
          some "Check your internet connection or API quota.", some "ALL_FAILED", none⟩
      else none

/-- processBatch (component lines 104-203).  A missing key opens the key
modal and does nothing (modelled as none); otherwise the chunk loop runs
and the finally block clears the in-progress flag.  Transient toast
notifications are not modelled. -/
def processBatch (genId : Nat → Nat → String) (now : Nat)
    (outcomes : Nat → Except GeminiError (List NormRec)) (texts : List String)
    (apiKey : String) (prevResults : List AnalysisResultDyn)
    (staleErrors : Nat) : Option BatchOut :=
  if apiKey = "" then none
  else
    some ⟨{ batchFinalSt genId now outcomes texts apiKey prevResults with
        progress := { (batchFinalSt genId now outcomes texts apiKey prevResults).progress with
          isProcessing := false } },
      batchDetails (batchFinalSt genId now outcomes texts apiKey prevResults) texts staleErrors⟩

/-! ## CSV export (downloadCSV in the App component) -/

/-- SentimentType (src/types.ts lines 2-6). -/
inductive SentimentType where
  | POSITIVE
  | NEGATIVE
  | NEUTRAL
deriving DecidableEq, Repr

def SentimentType.str : SentimentType → String
  | .POSITIVE => "Positive"
  | .NEGATIVE => "Negative"
  | .NEUTRAL => "Neutral"

/-- AnalysisResult (src/types.ts lines 8-19), the statically-typed record
shape the export functions consume. -/
structure AnalysisResult where
  id : String
  text : String
  sentiment : SentimentType
  confidence : Rat
  keywords : List String
  emotion : String
  emotionEmoji : String
  isSarcastic : Bool
  explanation : String
  timestamp : Nat

/-- The global replacement of a double quote by two double quotes. -/
def escapeQuotes : List Char → List Char
  | [] => []
  | c :: t => if c = '"' then '"' :: '"' :: escapeQuotes t else c :: escapeQuotes t

/-- A quoted CSV field with its embedded quotes doubled. -/
def csvQuote (s : String) : String :=
  "\"" ++ String.mk (escapeQuotes s.toList) ++ "\""

/-- A quoted CSV field with no escaping, as the template literal
"${...}" produces; the source applies it to the joined keywords. -/
def csvWrap (s : String) : String := "\"" ++ s ++ "\""

def csvHeaders : List String :=
  ["ID", "Text", "Sentiment", "Emotion", "Is Sarcastic", "Confidence", "Keywords", "Explanation"]

/-- One CSV row (numStr abstracts JavaScript number formatting, which is
outside this model).  Only the text and explanation fields run the quote
replacement; the keywords field is wrapped in quotes with no escaping. -/
def csvRow (numStr : Rat → String) (r : AnalysisResult) : List String :=
  [r.id, csvQuote r.text, r.sentiment.str, r.emotion,
    if r.isSarcastic then "Yes" else "No", numStr r.confidence,
    csvWrap (String.intercalate "; " r.keywords), csvQuote r.explanation]

/-- The csvContent string built by downloadCSV (the encodeURI step is not
modelled). -/
def downloadCSVContent (numStr : Rat → String) (results : List AnalysisResult) : String :=
  "data:text/csv;charset=utf-8," ++
    String.intercalate "\n"
      (String.intercalate "," csvHeaders :: (results.map (csvRow numStr)).map (String.intercalate ","))

/-! ## File import (handleFileUpload in the App component) -/

/-- split on the pattern carriage-return-then-newline or bare newline; a
lone carriage return does not split. -/
def splitLines : List Char → List (List Char)
  | [] => [[]]
  | '\r' :: '\n' :: rest => [] :: splitLines rest
  | '\n' :: rest => [] :: splitLines rest
  | c :: rest =>
    match splitLines rest with
    | [] => [[c]]
    | l :: ls => (c :: l) :: ls

/-- content.split followed by the blank-line filter
line.trim().length > 0. -/
def nonBlankLines (content : String) : List String :=
  ((splitLines content.toList).map String.mk).filter
    (fun l => !(trimChars l.toList).isEmpty)

/-- The optional CSV header-row strip: drop the first line when its
lowercase form starts with "text" or contains "content". -/
def stripHeaderRow (texts : List String) : List String :=
  match texts with
  | [] => []
  | h :: t =>
    if strStartsWith (strToLower h) "text" || strIncludes (strToLower h) "content" then t
    else h :: t

inductive UploadOutcome where
  | tooLarge
  | invalidType
  | emptyFile
  | submitted (texts : List String) (tooManyRows : Bool)
deriving DecidableEq, Repr

def MAX_UPLOAD_BYTES : Nat := 2 * 1024 * 1024

def MAX_ROWS : Nat := 100

/-- The cap to the first 100 rows when the input is longer. -/
def capRows (texts : List String) : List String :=
  if texts.length > MAX_ROWS then texts.take MAX_ROWS else texts

/-- The cap to 100 rows and the empty-content check shared by both
accepted extensions. -/
def finishUpload (texts : List String) : UploadOutcome :=
  if (capRows texts).length > 0 then
    .submitted (capRows texts) (decide (texts.length > MAX_ROWS))
  else .emptyFile

/-- handleFileUpload (component lines 215-260): the 2MB size guard runs
before the file content is read; then the extension dispatch, line split,
optional CSV header strip and the 100-row cap. -/
def handleFileUpload (name : String) (size : Nat) (content : String) : UploadOutcome :=
  if size > MAX_UPLOAD_BYTES then .tooLarge
  else if strEndsWith name ".csv" then finishUpload (stripHeaderRow (nonBlankLines content))
  else if strEndsWith name ".txt" then finishUpload (nonBlankLines content)
  else .invalidType

/-! ### Fence-stripping lemmas for claim C5 -/

theorem stripFences_fence_prefix (s : List Char) :
    stripFences ("```json\n".toList ++ s) = stripFences s := by
  have h : "```json\n".toList ++ s
      = bq :: bq :: bq :: 'j' :: 's' :: 'o' :: 'n' :: '\n' :: s := rfl
  rw [h]
  simp [stripFences]

theorem stripFences_cons_notick (c1 c2 c3 : Char) (rest : List Char)
    (h1 : ¬(c1 = bq ∧ c2 = bq ∧ c3 = bq)) :
    stripFences (c1 :: c2 :: c3 :: rest) = c1 :: stripFences (c2 :: c3 :: rest) := by
  rw [stripFences.eq_def]
  simp [h1]

theorem stripFences_tick_nojson (c4 c5 c6 c7 : Char) (rest2 : List Char)
    (h2 : ¬(c4 = 'j' ∧ c5 = 's' ∧ c6 = 'o' ∧ c7 = 'n')) :
    stripFences (bq :: bq :: bq :: c4 :: c5 :: c6 :: c7 :: rest2)
      = stripFences (c4 :: c5 :: c6 :: c7 :: rest2) := by
  rw [stripFences.eq_def]
  simp [h2]

theorem stripFences_tick_json_nl (rest3 : List Char) :
    stripFences (bq :: bq :: bq :: 'j' :: 's' :: 'o' :: 'n' :: '\n' :: rest3)
      = stripFences rest3 := by
  rw [stripFences.eq_def]
  simp

theorem stripFences_tick_json_nonl (c8 : Char) (rest3 : List Char) (hc8 : ¬c8 = '\n') :
    stripFences (bq :: bq :: bq :: 'j' :: 's' :: 'o' :: 'n' :: c8 :: rest3)
      = stripFences (c8 :: rest3) := by
  rw [stripFences.eq_def]
  simp [hc8]

theorem stripFences_nl_ticks : stripFences ('\n' :: bq :: bq :: bq :: []) = ['\n'] := by
  decide

theorem stripFences_append_close (s : List Char) :
    stripFences (s ++ "\n```".toList) = stripFences s ++ ['\n'] ∨
    stripFences (s ++ "\n```".toList) = stripFences s := by
  have hsuf : "\n```".toList = '\n' :: bq :: bq :: bq :: [] := rfl
  rw [hsuf]
  induction s using stripFences.induct with
  | case1 =>
      left
      simp +decide [stripFences]
  | case2 c =>
      left
      simp only [List.cons_append, List.nil_append]
      rw [stripFences_cons_notick c '\n' bq _ (by simp +decide)]
      simp +decide [stripFences]
  | case3 c d =>
      left
      simp only [List.cons_append, List.nil_append]
      rw [stripFences_cons_notick c d '\n' _ (by simp +decide)]
      rw [stripFences_cons_notick d '\n' bq _ (by simp +decide)]
      simp +decide [stripFences]
  | case4 c1 c2 c3 h1 c4 c5 c6 c7 h2 rest3 ih =>
      obtain ⟨rfl, rfl, rfl⟩ := h1
      obtain ⟨rfl, rfl, rfl, rfl⟩ := h2
      simp only [List.cons_append]
      rw [stripFences_tick_json_nl, stripFences_tick_json_nl]
      exact ih
  | case5 c1 c2 c3 h1 c4 c5 c6 c7 h2 c8 rest3 hc8 ih =>
      obtain ⟨rfl, rfl, rfl⟩ := h1
      obtain ⟨rfl, rfl, rfl, rfl⟩ := h2
      simp only [List.cons_append]
      rw [stripFences_tick_json_nonl c8 _ hc8, stripFences_tick_json_nonl c8 _ hc8]
      exact ih
  | case6 c1 c2 c3 h1 c4 c5 c6 c7 h2 =>
      obtain ⟨rfl, rfl, rfl⟩ := h1
      obtain ⟨rfl, rfl, rfl, rfl⟩ := h2
      right
      simp only [List.cons_append, List.nil_append]
      rw [stripFences_tick_json_nl]
      simp +decide [stripFences]
  | case7 c1 c2 c3 h1 c4 c5 c6 c7 rest2 h2 ih =>
      obtain ⟨rfl, rfl, rfl⟩ := h1
      simp only [List.cons_append]
      rw [stripFences_tick_nojson c4 c5 c6 c7 _ h2, stripFences_tick_nojson c4 c5 c6 c7 _ h2]
      simpa using ih
  | case8 c1 c2 c3 h1 rest hshort ih =>
      obtain ⟨rfl, rfl, rfl⟩ := h1
      have hgoal : stripFences ((bq :: bq :: bq :: rest) ++ ['\n', bq, bq, bq])
          = stripFences (rest ++ ['\n', bq, bq, bq]) := by
        rcases rest with _ | ⟨a, _ | ⟨b, _ | ⟨c, t⟩⟩⟩
        · simp only [List.cons_append, List.nil_append]
          exact stripFences_tick_nojson _ _ _ _ _ (by simp +decide)
        · simp only [List.cons_append, List.nil_append]
          exact stripFences_tick_nojson _ _ _ _ _ (by simp +decide)
        · simp only [List.cons_append, List.nil_append]
          exact stripFences_tick_nojson _ _ _ _ _ (by simp +decide)
        · rcases t with _ | ⟨d, t'⟩
          · simp only [List.cons_append, List.nil_append]
            exact stripFences_tick_nojson _ _ _ _ _ (by simp +decide)
          · exact absurd rfl (hshort a b c d t')
      have hself : stripFences (bq :: bq :: bq :: rest) = stripFences rest := by
        rw [stripFences.eq_def]
        have : ∀ c4 c5 c6 c7 rest2, rest ≠ c4 :: c5 :: c6 :: c7 :: rest2 := by
          intro c4 c5 c6 c7 rest2 h
          exact hshort c4 c5 c6 c7 rest2 h
        rcases rest with _ | ⟨a, _ | ⟨b, _ | ⟨c, t⟩⟩⟩
        · simp
        · simp
        · simp
        · rcases t with _ | ⟨d, t'⟩
          · simp
          · exact absurd rfl (hshort a b c d t')
      rw [hgoal, hself]
      exact ih
  | case9 c1 c2 c3 rest h1 ih =>
      simp only [List.cons_append]
      rw [stripFences_cons_notick c1 c2 c3 _ h1,
        stripFences_cons_notick c1 c2 c3 _ h1]
      rcases ih with ih | ih
      · left
        simp only [List.cons_append] at ih
        rw [ih]
        simp
      · right
        simp only [List.cons_append] at ih
        rw [ih]

theorem trimChars_append_newline (s : List Char) :
    trimChars (s ++ ['\n']) = trimChars s := by
  unfold trimChars
  rw [List.dropWhile_append]
  by_cases h : (s.dropWhile isWsChar).isEmpty
  · simp only [h, if_true]
    have h0 : s.dropWhile isWsChar = [] := by simpa using h
    simp +decide [h0]
  · rw [if_neg h, List.reverse_append]
    simp +decide

/-- C5: a markdown-fenced response body normalizes to exactly the same
string as its unfenced equivalent. -/
theorem cleanJsonString_fenced (body : String) :
    cleanJsonString ("```json\n" ++ body ++ "\n```") = cleanJsonString body := by
  unfold cleanJsonString cleanJsonChars
  have hl : ("```json\n" ++ body ++ "\n```").toList
      = "```json\n".toList ++ (body.toList ++ "\n```".toList) := by
    simp [String.toList, String.data_append]
  rw [hl, stripFences_fence_prefix]
  rcases stripFences_append_close body.toList with h | h
  · rw [h, trimChars_append_newline]
  · rw [h]

/-! ## Claim C1: totality of the normalizer -/

theorem propGet_ok (item : Json) (k : String) (h : item ≠ Json.null) :
    ∃ v, propGet item k = Except.ok v := by
  cases item
  case null => exact absurd rfl h
  case obj fields =>
    unfold propGet
    rcases hf : fields.reverse.find? (fun p => p.1 == k) with _ | p
    · exact ⟨Json.null, by simp [hf]⟩
    · exact ⟨p.2, by simp [hf]⟩
  all_goals exact ⟨Json.null, rfl⟩

/-- C1 counterexample: the normalizer does not behave as claimed.  An
unknown but truthy sentiment value ("Happy") is kept verbatim rather than
coerced to Neutral (the enum cast has no runtime effect), and a null
array element makes the field read throw instead of yielding a record. -/
theorem normalizeItem_not_as_claimed :
    (∃ r, normalizeItem (Json.obj [("sentiment", Json.str "Happy")]) = Except.ok r ∧
      r.sentiment = Json.str "Happy" ∧ r.sentiment ≠ Json.str "Neutral") ∧
    normalizeItem Json.null
      = Except.error "Cannot read properties of null (reading 'sentiment')" := by
  refine ⟨⟨_, rfl, rfl, ?_⟩, rfl⟩
  intro hcon
  injection hcon with h'
  exact absurd h' (by decide)

/-- C1 (amended): for every non-null parsed array element the normalizer
succeeds with a fully-populated record; falsy sentiment, emotion, emoji
and explanation fields receive their defaults while truthy values —
including unrecognized sentiment strings — are kept verbatim; the
sarcasm flag is coerced by truthiness; a non-numeric confidence becomes
0.5; a non-array keywords value becomes the empty list.  A null element
is the sole failure: reading its first property throws. -/
theorem normalizeItem_total_nonnull (item : Json) (h : item ≠ Json.null) :
    ∃ r, normalizeItem item = Except.ok r ∧
      ∀ s e em sarc conf kw ex,
        propGet item "sentiment" = Except.ok s →
        propGet item "emotion" = Except.ok e →
        propGet item "emotionEmoji" = Except.ok em →
        propGet item "isSarcastic" = Except.ok sarc →
        propGet item "confidence" = Except.ok conf →
        propGet item "keywords" = Except.ok kw →
        propGet item "explanation" = Except.ok ex →
        ((truthy s = false → r.sentiment = Json.str "Neutral") ∧
          (truthy s = true → r.sentiment = s)) ∧
        ((truthy e = false → r.emotion = Json.str "Neutral") ∧
          (truthy e = true → r.emotion = e)) ∧
        ((truthy em = false → r.emotionEmoji = Json.str neutralFaceEmoji) ∧
          (truthy em = true → r.emotionEmoji = em)) ∧
        r.isSarcastic = truthy sarc ∧
        ((∀ q, conf ≠ Json.num q) → r.confidence = 1 / 2) ∧
        (∀ q, conf = Json.num q → r.confidence = q) ∧
        ((∀ l, kw ≠ Json.arr l) → r.keywords = []) ∧
        (∀ l, kw = Json.arr l → r.keywords = l) ∧
        ((truthy ex = false → r.explanation = Json.str "No explanation provided.") ∧
          (truthy ex = true → r.explanation = ex)) := by
  obtain ⟨s, hs⟩ := propGet_ok item "sentiment" h
  obtain ⟨e, he⟩ := propGet_ok item "emotion" h
  obtain ⟨em, hem⟩ := propGet_ok item "emotionEmoji" h
  obtain ⟨sarc, hsarc⟩ := propGet_ok item "isSarcastic" h
  obtain ⟨conf, hconf⟩ := propGet_ok item "confidence" h
  obtain ⟨kw, hkw⟩ := propGet_ok item "keywords" h
  obtain ⟨ex, hex⟩ := propGet_ok item "explanation" h
  have hr : normalizeItem item = Except.ok
      { sentiment := jsOr s (Json.str "Neutral")
        emotion := jsOr e (Json.str "Neutral")
        emotionEmoji := jsOr em (Json.str neutralFaceEmoji)
        isSarcastic := truthy sarc
        confidence := confCoerce conf
        keywords := keywordsCoerce kw
        explanation := jsOr ex (Json.str "No explanation provided.") } := by
    unfold normalizeItem
    simp only [hs, he, hem, hsarc, hconf, hkw, hex]
    rfl
  refine ⟨_, hr, ?_⟩
  intro s' e' em' sarc' conf' kw' ex' hs' he' hem' hsarc' hconf' hkw' hex'
  rw [hs] at hs'; injection hs' with hs'; subst hs'
  rw [he] at he'; injection he' with he'; subst he'
  rw [hem] at hem'; injection hem' with hem'; subst hem'
  rw [hsarc] at hsarc'; injection hsarc' with hsarc'; subst hsarc'
  rw [hconf] at hconf'; injection hconf' with hconf'; subst hconf'
  rw [hkw] at hkw'; injection hkw' with hkw'; subst hkw'
  rw [hex] at hex'; injection hex' with hex'; subst hex'
  refine ⟨⟨fun hf => by simp [jsOr, hf], fun ht => by simp [jsOr, ht]⟩,
    ⟨fun hf => by simp [jsOr, hf], fun ht => by simp [jsOr, ht]⟩,
    ⟨fun hf => by simp [jsOr, hf], fun ht => by simp [jsOr, ht]⟩,
    rfl, ?_, ?_, ?_, ?_,
    ⟨fun hf => by simp [jsOr, hf], fun ht => by simp [jsOr, ht]⟩⟩
  · intro hq
    cases conf <;> first | rfl | exact absurd rfl (hq _)
  · intro q hq
    subst hq
    rfl
  · intro hl
    cases kw <;> first | rfl | exact absurd rfl (hl _)
  · intro l hl
    subst hl
    rfl

/-- C1 witness: the amended theorem applied to the empty object, whose
normalization succeeds. -/
theorem normalizeItem_total_nonnull_witness :
    ∃ r, normalizeItem (Json.obj []) = Except.ok r := by
  obtain ⟨r, hr, -⟩ :=
    normalizeItem_total_nonnull (Json.obj []) (fun hcon => Json.noConfusion hcon)
  exact ⟨r, hr⟩

/-! ## Claim C10: the credential and empty-input guards -/

/-- C10: with an empty credential analyzeSentimentBatch fails with the
AUTH_ERROR-coded missing-key error before anything else (for every oracle
and even for empty input); with a credential present and an empty text
list it returns the empty list, for every oracle — the remote call is
never consulted. -/
theorem analyzeSentimentBatch_guards (texts : List String) (key : String)
    (oracle : ApiOutcome) :
    (key = "" → analyzeSentimentBatch texts key oracle = Except.error apiKeyMissingError ∧
      apiKeyMissingError.code = ErrCode.AUTH_ERROR) ∧
    (key ≠ "" → texts = [] → analyzeSentimentBatch texts key oracle = Except.ok []) := by
  constructor
  · intro hk
    subst hk
    exact ⟨rfl, rfl⟩
  · intro hk ht
    subst ht
    simp [analyzeSentimentBatch, hk]

/-- C10 witness: both guards at concrete inputs; the oracle throws, yet
the empty-input call still succeeds because it is never consulted. -/
theorem analyzeSentimentBatch_guards_witness :
    analyzeSentimentBatch [] "" (ApiOutcome.throws "boom" none)
      = Except.error apiKeyMissingError ∧
    analyzeSentimentBatch [] "key" (ApiOutcome.throws "boom" none) = Except.ok [] :=
  ⟨((analyzeSentimentBatch_guards [] "" (ApiOutcome.throws "boom" none)).1 rfl).1,
    (analyzeSentimentBatch_guards [] "key" (ApiOutcome.throws "boom" none)).2
      (by decide) rfl⟩

/-! ## Claim C6: parse failures yield PARSE_ERROR -/

/-- C6: under a present credential, nonempty input and a well-formed
successful response, a cleaned text that fails to parse raises the
PARSE_ERROR-coded malformed-JSON error, and one that parses to a
non-array raises the PARSE_ERROR-coded invalid-structure error. -/
theorem analyzeSentimentBatch_parse_errors
    (texts : List String) (key : String) (cands : List Unit) (t : String)
    (hkey : key ≠ "") (htexts : texts ≠ []) (hcands : cands ≠ []) (ht : t ≠ "") :
    (jsonParse (cleanJsonString t) = none →
      analyzeSentimentBatch texts key (.returns ⟨some cands, some t⟩)
        = Except.error malformedJsonError ∧
      malformedJsonError.code = ErrCode.PARSE_ERROR) ∧
    (∀ v, jsonParse (cleanJsonString t) = some v → (∀ items, v ≠ Json.arr items) →
      analyzeSentimentBatch texts key (.returns ⟨some cands, some t⟩)
        = Except.error invalidStructureError ∧
      invalidStructureError.code = ErrCode.PARSE_ERROR) := by
  have hlen : ¬(texts.length = 0) := by
    simpa [List.length_eq_zero] using htexts
  have hce : candidatesEmpty (some cands) = false := by
    cases cands with
    | nil => exact absurd rfl hcands
    | cons a l => rfl
  constructor
  · intro hp
    refine ⟨?_, rfl⟩
    simp [analyzeSentimentBatch, hkey, hlen, tryBlock, hce, ht, hp, classifyCatch]
  · intro v hp harr
    refine ⟨?_, rfl⟩
    cases v
    case arr items => exact absurd rfl (harr items)
    all_goals
      simp [analyzeSentimentBatch, hkey, hlen, tryBlock, hce, ht, hp, classifyCatch]

/-- C6 witness: a parsed non-array object and an unparseable text, both
classified PARSE_ERROR. -/
theorem analyzeSentimentBatch_parse_errors_witness :
    analyzeSentimentBatch ["x"] "k" (.returns ⟨some [()], some "\x7b\"a\":1\x7d"⟩)
      = Except.error invalidStructureError ∧
    analyzeSentimentBatch ["x"] "k" (.returns ⟨some [()], some "not json"⟩)
      = Except.error malformedJsonError :=
  ⟨((analyzeSentimentBatch_parse_errors ["x"] "k" [()] "\x7b\"a\":1\x7d"
        (by decide) (by decide) (by decide) (by decide)).2
      (Json.obj [("a", Json.num 1)]) rfl (fun items hc => Json.noConfusion hc)).1,
    ((analyzeSentimentBatch_parse_errors ["x"] "k" [()] "not json"
        (by decide) (by decide) (by decide) (by decide)).1 rfl).1⟩

/-! ## Claim C7: the error classifier -/

/-- C7: the classifier is a total function mapping every caught failure
to exactly one code, in priority order: AUTH_ERROR (401/403 or a
key-related message), then RATE_LIMIT (429 or a quota message), then
SERVER_ERROR (503/overload), then INVALID_REQUEST (400, then 404);
anything else is UNKNOWN.  GeminiErrors thrown inside the try block —
SAFETY_BLOCK on zero candidates, SERVER_ERROR on an explicitly empty
successful response, PARSE_ERROR on malformed or non-array JSON — pass
through the catch unchanged.  Every kind carries its fixed remediation
suggestion, independent of the particular failure. -/
theorem classifyCatch_spec :
    (∀ e : GeminiError, classifyCatch (.gemini e) = e) ∧
    (∀ (msg : String) (status : Option Nat),
      ((strIncludes msg "401" || strIncludes msg "403" || strIncludes msg "API key"
          || status == some 401 || status == some 403) = true →
        classifyCatch (.js msg status) = invalidKeyError status ∧
        (invalidKeyError status).code = ErrCode.AUTH_ERROR) ∧
      ((strIncludes msg "401" || strIncludes msg "403" || strIncludes msg "API key"
          || status == some 401 || status == some 403) = false →
        (strIncludes msg "429" || strIncludes msg "Quota" || status == some 429) = true →
        classifyCatch (.js msg status) = rateLimitError ∧
        rateLimitError.code = ErrCode.RATE_LIMIT) ∧
      ((strIncludes msg "401" || strIncludes msg "403" || strIncludes msg "API key"
          || status == some 401 || status == some 403) = false →
        (strIncludes msg "429" || strIncludes msg "Quota" || status == some 429) = false →
        (strIncludes msg "503" || strIncludes msg "Overloaded" || status == some 503) = true →
        classifyCatch (.js msg status) = serverOverloadedError ∧
        serverOverloadedError.code = ErrCode.SERVER_ERROR) ∧
      ((strIncludes msg "401" || strIncludes msg "403" || strIncludes msg "API key"
          || status == some 401 || status == some 403) = false →
        (strIncludes msg "429" || strIncludes msg "Quota" || status == some 429) = false →
        (strIncludes msg "503" || strIncludes msg "Overloaded" || status == some 503) = false →
        (status == some 400 || strIncludes msg "400") = true →
        classifyCatch (.js msg status) = invalidRequestError ∧
        invalidRequestError.code = ErrCode.INVALID_REQUEST) ∧
      ((strIncludes msg "401" || strIncludes msg "403" || strIncludes msg "API key"
          || status == some 401 || status == some 403) = false →
        (strIncludes msg "429" || strIncludes msg "Quota" || status == some 429) = false →
        (strIncludes msg "503" || strIncludes msg "Overloaded" || status == some 503) = false →
        (status == some 400 || strIncludes msg "400") = false →
        (status == some 404 || strIncludes msg "404") = true →
        classifyCatch (.js msg status) = modelNotFoundError ∧
        modelNotFoundError.code = ErrCode.INVALID_REQUEST) ∧
      ((strIncludes msg "401" || strIncludes msg "403" || strIncludes msg "API key"
          || status == some 401 || status == some 403) = false →
        (strIncludes msg "429" || strIncludes msg "Quota" || status == some 429) = false →
        (strIncludes msg "503" || strIncludes msg "Overloaded" || status == some 503) = false →
        (status == some 400 || strIncludes msg "400") = false →
        (status == some 404 || strIncludes msg "404") = false →
        classifyCatch (.js msg status) = unknownError status ∧
        (unknownError status).code = ErrCode.UNKNOWN)) ∧
    (∀ cand text, candidatesEmpty cand = true →
      tryBlock (.returns ⟨cand, text⟩) = Except.error (.gemini safetyBlockError) ∧
      safetyBlockError.code = ErrCode.SAFETY_BLOCK) ∧
    (∀ cand, candidatesEmpty cand = false →
      tryBlock (.returns ⟨cand, none⟩) = Except.error (.gemini emptyResponseError) ∧
      tryBlock (.returns ⟨cand, some ""⟩) = Except.error (.gemini emptyResponseError) ∧
      emptyResponseError.code = ErrCode.SERVER_ERROR) ∧
    (∀ s1 s2 : Option Nat,
      (invalidKeyError s1).solution = (invalidKeyError s2).solution ∧
      (unknownError s1).solution = (unknownError s2).solution) := by
  refine ⟨fun e => rfl, ?_, ?_, ?_, fun s1 s2 => ⟨rfl, rfl⟩⟩
  · intro msg status
    refine ⟨?_, ?_, ?_, ?_, ?_, ?_⟩
    · intro h1
      exact ⟨by simp [classifyCatch, h1], rfl⟩
    · intro h1 h2
      exact ⟨by simp [classifyCatch, h1, h2], rfl⟩
    · intro h1 h2 h3
      exact ⟨by simp [classifyCatch, h1, h2, h3], rfl⟩
    · intro h1 h2 h3 h4
      exact ⟨by simp [classifyCatch, h1, h2, h3, h4], rfl⟩
    · intro h1 h2 h3 h4 h5
      exact ⟨by simp [classifyCatch, h1, h2, h3, h4, h5], rfl⟩
    · intro h1 h2 h3 h4 h5
      exact ⟨by simp [classifyCatch, h1, h2, h3, h4, h5], rfl⟩
  · intro cand text hc
    exact ⟨by simp [tryBlock, hc], rfl⟩
  · intro cand hc
    exact ⟨by simp [tryBlock, hc], by simp [tryBlock, hc], rfl⟩

/-- C7 witness: concrete classifications — a 401 message maps to the
auth error, a quota message to the rate limit, an unmatched message to
UNKNOWN, and a zero-candidate response to the safety block. -/
theorem classifyCatch_spec_witness :
    classifyCatch (.js "HTTP 401 received" none) = invalidKeyError none ∧
    classifyCatch (.js "Quota exhausted" none) = rateLimitError ∧
    classifyCatch (.js "something odd" (some 500)) = unknownError (some 500) ∧
    tryBlock (.returns ⟨none, some "[]"⟩) = Except.error (.gemini safetyBlockError) :=
  ⟨((classifyCatch_spec.2.1 "HTTP 401 received" none).1 (by decide)).1,
    ((classifyCatch_spec.2.1 "Quota exhausted" none).2.1 (by decide) (by decide)).1,
    ((classifyCatch_spec.2.1 "something odd" (some 500)).2.2.2.2.2
      (by decide) (by decide) (by decide) (by decide) (by decide)).1,
    (classifyCatch_spec.2.2.1 none (some "[]") rfl).1⟩

/-! ## Claim C8: CSV export -/

theorem escapeQuotes_eq_flatMap (s : List Char) :
    escapeQuotes s = s.flatMap (fun c => if c = '"' then ['"', '"'] else [c]) := by
  induction s with
  | nil => rfl
  | cons c t ih =>
      by_cases h : c = '"' <;> simp [escapeQuotes, h, ih]

theorem escapeQuotes_count (s : List Char) :
    (escapeQuotes s).count '"' = 2 * s.count '"' := by
  induction s with
  | nil => rfl
  | cons c t ih =>
      by_cases h : c = '"' <;>
        simp [escapeQuotes, h, List.count_cons, ih] <;> ring

/-- C8: the CSV export writes the fixed 8-column header, one row per
result, and wraps the text and explanation fields in quotes with every
embedded double quote doubled (the global quote replacement is exactly
the per-character expansion, so the escaped field holds twice as many
quote characters); the keywords field is merely wrapped in quotes,
without escaping. -/
theorem downloadCSV_spec (numStr : Rat → String) (results : List AnalysisResult) :
    csvHeaders.length = 8 ∧
    csvHeaders = ["ID", "Text", "Sentiment", "Emotion", "Is Sarcastic", "Confidence",
      "Keywords", "Explanation"] ∧
    (results.map (csvRow numStr)).length = results.length ∧
    (∀ r ∈ results,
      csvRow numStr r = [r.id, csvQuote r.text, r.sentiment.str, r.emotion,
        if r.isSarcastic then "Yes" else "No", numStr r.confidence,
        csvWrap (String.intercalate "; " r.keywords), csvQuote r.explanation]) ∧
    (∀ s : String, (csvQuote s).toList = '"' :: (escapeQuotes s.toList ++ ['"'])) ∧
    (∀ s : String, (csvWrap s).toList = '"' :: (s.toList ++ ['"'])) ∧
    (∀ s : List Char, escapeQuotes s
      = s.flatMap (fun c => if c = '"' then ['"', '"'] else [c])) ∧
    (∀ s : List Char, (escapeQuotes s).count '"' = 2 * s.count '"') ∧
    downloadCSVContent numStr results
      = "data:text/csv;charset=utf-8," ++ String.intercalate "\n"
          (String.intercalate "," csvHeaders
            :: (results.map (csvRow numStr)).map (String.intercalate ",")) := by
  refine ⟨rfl, rfl, results.length_map _, fun r _ => rfl, ?_, ?_,
    escapeQuotes_eq_flatMap, escapeQuotes_count, rfl⟩
  · intro s
    simp [csvQuote, String.toList, String.data_append]
  · intro s
    simp [csvWrap, String.toList, String.data_append]

/-- C8 witness: a concrete row whose text field contains an embedded
quote; the exported text field doubles it, while the keywords field is
wrapped verbatim. -/
theorem downloadCSV_spec_witness :
    csvRow (fun _ => "1")
        ⟨"id1", "say \"hi\"", .POSITIVE, 1, ["a", "b"], "Joy", "J", false, "fine", 0⟩
      = ["id1", csvQuote "say \"hi\"", "Positive", "Joy", "No", "1",
          csvWrap "a; b", csvQuote "fine"] ∧
    csvQuote "say \"hi\"" = "\"say \"\"hi\"\"\"" ∧
    csvWrap "a; b" = "\"a; b\"" :=
  ⟨(downloadCSV_spec (fun _ => "1")
      [⟨"id1", "say \"hi\"", .POSITIVE, 1, ["a", "b"], "Joy", "J", false, "fine", 0⟩]).2.2.2.1
      _ (List.mem_singleton.mpr rfl), rfl, rfl⟩

/-! ## Claim C9: file import -/

theorem finishUpload_submitted (ts0 ts : List String) (w : Bool)
    (h : finishUpload ts0 = .submitted ts w) :
    ts.length ≤ MAX_ROWS ∧ ∀ l ∈ ts, l ∈ ts0 := by
  unfold finishUpload capRows at h
  by_cases hc : ts0.length > MAX_ROWS
  · rw [if_pos hc] at h
    split at h
    · injection h with h1 h2
      subst h1
      constructor
      · simp [List.length_take]
      · intro l hl
        exact List.take_subset _ _ hl
    · cases h
  · rw [if_neg hc] at h
    split at h
    · injection h with h1 h2
      subst h1
      exact ⟨Nat.le_of_not_lt hc, fun l hl => hl⟩
    · cases h

theorem nonBlankLines_mem (content : String) (l : String)
    (h : l ∈ nonBlankLines content) : trimChars l.toList ≠ [] := by
  unfold nonBlankLines at h
  have h2 : (!(trimChars l.toList).isEmpty) = true := (List.mem_filter.mp h).2
  intro hnil
  rw [hnil] at h2
  simp at h2

theorem stripHeaderRow_subset (ts : List String) (l : String)
    (h : l ∈ stripHeaderRow ts) : l ∈ ts := by
  cases ts with
  | nil => simpa [stripHeaderRow] using h
  | cons x t =>
      rw [stripHeaderRow] at h
      split at h
      · exact List.mem_cons_of_mem x h
      · exact h

/-- C9: the 2MB size guard rejects before the content is consulted; only
the .csv and .txt extensions are accepted; the accepted paths are the
line-split pipeline with blank lines dropped and, for CSV, the optional
header row stripped; every submitted batch holds at most 100 nonblank
rows, and inputs beyond 100 rows are truncated to the first 100. -/
theorem handleFileUpload_spec (name : String) (size : Nat) (content : String) :
    (MAX_UPLOAD_BYTES < size → handleFileUpload name size content = .tooLarge) ∧
    (size ≤ MAX_UPLOAD_BYTES → strEndsWith name ".csv" = false →
      strEndsWith name ".txt" = false →
      handleFileUpload name size content = .invalidType) ∧
    (size ≤ MAX_UPLOAD_BYTES → strEndsWith name ".csv" = true →
      handleFileUpload name size content
        = finishUpload (stripHeaderRow (nonBlankLines content))) ∧
    (size ≤ MAX_UPLOAD_BYTES → strEndsWith name ".csv" = false →
      strEndsWith name ".txt" = true →
      handleFileUpload name size content = finishUpload (nonBlankLines content)) ∧
    (∀ ts w, handleFileUpload name size content = .submitted ts w →
      ts.length ≤ MAX_ROWS ∧ ∀ l ∈ ts, trimChars l.toList ≠ []) ∧
    (∀ ts : List String, MAX_ROWS < ts.length →
      finishUpload ts = .submitted (ts.take MAX_ROWS) true) := by
  have hnot : MAX_UPLOAD_BYTES < size → ¬size ≤ MAX_UPLOAD_BYTES := fun h => Nat.not_le.mpr h
  refine ⟨?_, ?_, ?_, ?_, ?_, ?_⟩
  · intro h
    simp [handleFileUpload, h]
  · intro h hcsv htxt
    simp [handleFileUpload, Nat.not_lt.mpr h, hcsv, htxt]
  · intro h hcsv
    simp [handleFileUpload, Nat.not_lt.mpr h, hcsv]
  · intro h hcsv htxt
    simp [handleFileUpload, Nat.not_lt.mpr h, hcsv, htxt]
  · intro ts w hsub
    unfold handleFileUpload at hsub
    split at hsub
    · cases hsub
    · split at hsub
      · obtain ⟨hlen, hmem⟩ := finishUpload_submitted _ _ _ hsub
        refine ⟨hlen, fun l hl => ?_⟩
        exact nonBlankLines_mem content l (stripHeaderRow_subset _ _ (hmem l hl))
      · split at hsub
        · obtain ⟨hlen, hmem⟩ := finishUpload_submitted _ _ _ hsub
          exact ⟨hlen, fun l hl => nonBlankLines_mem content l (hmem l hl)⟩
        · cases hsub
  · intro ts hts
    unfold finishUpload
    have hcap : capRows ts = ts.take MAX_ROWS := by
      unfold capRows
      rw [if_pos hts]
    rw [hcap]
    have h100 : (ts.take MAX_ROWS).length > 0 := by
      simp [List.length_take, MAX_ROWS]
      omega
    rw [if_pos h100]
    congr 1
    exact decide_eq_true hts

/-- C9 witness: a small CSV upload whose header row is stripped and whose
blank line is dropped. -/
theorem handleFileUpload_spec_witness :
    handleFileUpload "a.csv" 10 "text,label\nhi\n\nworld"
      = .submitted ["hi", "world"] false :=
  ((handleFileUpload_spec "a.csv" 10 "text,label\nhi\n\nworld").2.2.1
      (by decide) (by decide)).trans (by decide)

/-! ## Claim C4: the chunk partition -/

theorem chunksF_nil (fuel : Nat) : chunksF fuel [] = [] := by
  cases fuel <;> rfl

theorem chunksF_flatten (fuel : Nat) :
    ∀ l : List String, l.length ≤ fuel → (chunksF fuel l).flatten = l := by
  induction fuel with
  | zero =>
      intro l hl
      have hnil : l = [] := List.length_eq_zero.mp (Nat.le_zero.mp hl)
      subst hnil
      rfl
  | succ f ih =>
      intro l hl
      cases l with
      | nil => rfl
      | cons c t =>
          rw [chunksF, List.flatten_cons, ih]
          · exact List.take_append_drop CHUNK_SIZE (c :: t)
          · simp only [List.length_drop, List.length_cons, CHUNK_SIZE] at hl ⊢
            omega

theorem chunksF_mem (fuel : Nat) :
    ∀ (l : List String) (c : List String), c ∈ chunksF fuel l →
      c.length ≤ CHUNK_SIZE ∧ c ≠ [] := by
  induction fuel with
  | zero =>
      intro l c hc
      simp [chunksF] at hc
  | succ f ih =>
      intro l c hc
      cases l with
      | nil => simp [chunksF] at hc
      | cons x t =>
          rw [chunksF] at hc
          rcases List.mem_cons.mp hc with h | h
          · subst h
            refine ⟨?_, ?_⟩
            · simp [List.length_take]
            · simp [CHUNK_SIZE]
          · exact ih _ _ h

theorem chunksF_dropLast (fuel : Nat) :
    ∀ (l : List String) (c : List String), l.length ≤ fuel →
      c ∈ (chunksF fuel l).dropLast → c.length = CHUNK_SIZE := by
  induction fuel with
  | zero =>
      intro l c hl hc
      have hnil : l = [] := List.length_eq_zero.mp (Nat.le_zero.mp hl)
      subst hnil
      simp [chunksF] at hc
  | succ f ih =>
      intro l c hl hc
      cases l with
      | nil => simp [chunksF] at hc
      | cons x t =>
          rw [chunksF] at hc
          by_cases hd : List.drop CHUNK_SIZE (x :: t) = []
          · rw [hd, chunksF_nil] at hc
            simp at hc
          · have hne : chunksF f (List.drop CHUNK_SIZE (x :: t)) ≠ [] := by
              cases f with
              | zero =>
                  exfalso
                  apply hd
                  rw [List.drop_eq_nil_iff]
                  simp only [List.length_cons, CHUNK_SIZE] at hl ⊢
                  omega
              | succ f' =>
                  cases hdrop : List.drop CHUNK_SIZE (x :: t) with
                  | nil => exact absurd hdrop hd
                  | cons y u =>
                      rw [chunksF]
                      simp
            rw [List.dropLast_cons_of_ne_nil hne] at hc
            rcases List.mem_cons.mp hc with h | h
            · subst h
              have hlen : CHUNK_SIZE < (x :: t).length := by
                by_contra hle
                exact hd (List.drop_eq_nil_iff.mpr (Nat.le_of_not_lt hle))
              simp only [List.length_take]
              omega
            · refine ih _ _ ?_ h
              simp only [List.length_drop, List.length_cons, CHUNK_SIZE] at hl ⊢
              omega

theorem range_map_shift (n k : Nat) :
    (List.range (n + 1)).map (fun j => k + j)
      = k :: (List.range n).map (fun j => (k + 1) + j) := by
  rw [List.range_succ_eq_map, List.map_cons, List.map_map]
  refine congrArg₂ _ (by simp) (List.map_congr_left ?_)
  intro j hj
  simp [Function.comp]
  omega

theorem submittedChunks_no_auth
    (outs : Nat → Except GeminiError (List NormRec)) :
    ∀ (chunks : List (List String)) (k : Nat),
      (∀ j, isAuthOutcome (outs j) = false) →
      submittedChunks outs chunks k = (List.range chunks.length).map (fun j => k + j) := by
  intro chunks
  induction chunks with
  | nil => intro k _; rfl
  | cons c rest ih =>
      intro k h
      rw [submittedChunks]
      rcases ho : outs k with e | r
      · have he : ¬(e.code = ErrCode.AUTH_ERROR) := by
          have hk := h k
          rw [ho] at hk
          simpa [isAuthOutcome] using hk
        simp only [ho]
        rw [if_neg he, ih (k + 1) h]
        simp only [List.length_cons]
        exact (range_map_shift rest.length k).symm
      · simp only [ho]
        rw [ih (k + 1) h]
        simp only [List.length_cons]
        exact (range_map_shift rest.length k).symm

/-- C4: the chunking partitions the ordered inputs into consecutive
groups — their concatenation is the input list — where every group but
the last has exactly CHUNK_SIZE = 8 items and the last is nonempty with
at most 8; the groups are submitted sequentially in input order (indices
0, 1, 2, … when no auth failure interrupts); and a batch of 20 texts
yields exactly the group sizes 8, 8, 4. -/
theorem chunksOf_partition :
    (∀ texts : List String,
      (chunksOf texts).flatten = texts ∧
      (∀ c ∈ (chunksOf texts).dropLast, c.length = CHUNK_SIZE) ∧
      (∀ c ∈ chunksOf texts, c.length ≤ CHUNK_SIZE ∧ c ≠ [])) ∧
    (∀ (texts : List String) (outs : Nat → Except GeminiError (List NormRec)),
      (∀ j, isAuthOutcome (outs j) = false) →
      submittedChunks outs (chunksOf texts) 0
        = List.range (chunksOf texts).length) ∧
    (chunksOf (List.replicate 20 "t")).map List.length = [8, 8, 4] := by
  refine ⟨?_, ?_, by decide⟩
  · intro texts
    exact ⟨chunksF_flatten texts.length texts le_rfl,
      fun c hc => chunksF_dropLast texts.length texts c le_rfl hc,
      fun c hc => chunksF_mem texts.length texts c hc⟩
  · intro texts outs h
    rw [submittedChunks_no_auth outs (chunksOf texts) 0 h]
    simp

/-- C4 witness: the 20-text batch concretely — groups of sizes 8, 8, 4,
their concatenation restoring the input, submitted as groups 0, 1, 2. -/
theorem chunksOf_partition_witness :
    (chunksOf (List.replicate 20 "t")).flatten = List.replicate 20 "t" ∧
    submittedChunks (fun _ => Except.ok []) (chunksOf (List.replicate 20 "t")) 0
      = List.range 3 :=
  ⟨(chunksOf_partition.1 (List.replicate 20 "t")).1,
    (chunksOf_partition.2.1 (List.replicate 20 "t") (fun _ => Except.ok [])
        (fun _ => rfl)).trans (by decide)⟩

/-! ## Claim C2: the progress-counter invariant -/

/-- C2 counterexample: when the first (and only) chunk of a one-text
batch fails with a recoverable error, the cycle ends with errors = 1 and
processed = 0, violating errors ≤ processed: the loop never advances
processed for a failed chunk. -/
theorem batchProgress_errors_exceed_processed :
    processBatch (fun _ _ => "id") 0 (fun _ => Except.error rateLimitError)
        ["a"] "key" [] 0
      = some ⟨⟨[], ⟨1, 0, 1, false⟩, "key", false, none⟩, none⟩ ∧
    ¬((⟨1, 0, 1, false⟩ : BatchProgress).errors
        ≤ (⟨1, 0, 1, false⟩ : BatchProgress).processed) :=
  ⟨rfl, by decide⟩

theorem traceChunks_invariant (genId : Nat → Nat → String) (now : Nat)
    (outs : Nat → Except GeminiError (List NormRec)) :
    ∀ (chunks : List (List String)) (k : Nat) (st : BatchSt),
      st.progress.processed ≤ st.progress.total →
      st.progress.processed + st.progress.errors + (chunks.map List.length).sum
          ≤ st.progress.total →
      ∀ st' ∈ traceChunks genId now outs chunks k st,
        st'.progress.processed ≤ st'.progress.total ∧
        st'.progress.processed + st'.progress.errors ≤ st'.progress.total := by
  intro chunks
  induction chunks with
  | nil =>
      intro k st h1 h2 st' hst'
      simp [traceChunks] at hst'
  | cons c rest ih =>
      intro k st h1 h2 st' hst'
      simp only [List.map_cons, List.sum_cons] at h2
      rw [traceChunks] at hst'
      split at hst'
      · simp at hst'
      · split at hst'
        next recs heq =>
          rcases List.mem_cons.mp hst' with h | h
          · subst h
            simp only [chunkSuccessSt]
            constructor
            · exact Nat.min_le_right _ _
            · have := Nat.min_le_left (st.progress.processed + c.length) st.progress.total
              omega
          · refine ih (k + 1) _ ?_ ?_ st' h
            · simp only [chunkSuccessSt]
              exact Nat.min_le_right _ _
            · simp only [chunkSuccessSt]
              have := Nat.min_le_left (st.progress.processed + c.length) st.progress.total
              omega
        next e heq =>
          split at hst'
          · rcases List.mem_singleton.mp hst' with rfl
            simp only [chunkAuthSt]
            exact ⟨h1, by omega⟩
          · rcases List.mem_cons.mp hst' with h | h
            · subst h
              simp only [chunkFailSt]
              exact ⟨h1, by omega⟩
            · refine ih (k + 1) _ ?_ ?_ st' h
              · simpa only [chunkFailSt] using h1
              · simp only [chunkFailSt]
                omega

theorem runChunks_invariant (genId : Nat → Nat → String) (now : Nat)
    (outs : Nat → Except GeminiError (List NormRec)) :
    ∀ (chunks : List (List String)) (k : Nat) (st : BatchSt),
      st.progress.processed ≤ st.progress.total →
      st.progress.processed + st.progress.errors + (chunks.map List.length).sum
          ≤ st.progress.total →
      (runChunks genId now outs chunks k st).progress.processed
          ≤ (runChunks genId now outs chunks k st).progress.total ∧
      (runChunks genId now outs chunks k st).progress.processed
          + (runChunks genId now outs chunks k st).progress.errors
        ≤ (runChunks genId now outs chunks k st).progress.total := by
  intro chunks
  induction chunks with
  | nil =>
      intro k st h1 h2
      simp only [runChunks]
      exact ⟨h1, by simp at h2; omega⟩
  | cons c rest ih =>
      intro k st h1 h2
      simp only [List.map_cons, List.sum_cons] at h2
      rw [runChunks]
      split
      · exact ⟨h1, by omega⟩
      · split
        next recs heq =>
          refine ih (k + 1) _ ?_ ?_
          · simp only [chunkSuccessSt]
            exact Nat.min_le_right _ _
          · simp only [chunkSuccessSt]
            have := Nat.min_le_left (st.progress.processed + c.length) st.progress.total
            omega
        next e heq =>
          split
          · simp only [chunkAuthSt]
            exact ⟨h1, by omega⟩
          · refine ih (k + 1) _ ?_ ?_
            · simpa only [chunkFailSt] using h1
            · simp only [chunkFailSt]
              omega

theorem chunksOf_length_sum (texts : List String) :
    ((chunksOf texts).map List.length).sum = texts.length := by
  have h : (chunksOf texts).flatten = texts := chunksF_flatten texts.length texts le_rfl
  calc ((chunksOf texts).map List.length).sum
      = (chunksOf texts).flatten.length := (List.length_flatten _).symm
    _ = texts.length := by rw [h]

/-- C2 (amended): at every point of a batch cycle and in its final
state, processed ≤ total and processed + errors ≤ total (hence also
errors ≤ total); but errors is not bounded by processed — a failed chunk
adds its size to errors without advancing processed. -/
theorem batchProgress_invariant (genId : Nat → Nat → String) (now : Nat)
    (outs : Nat → Except GeminiError (List NormRec)) (texts : List String)
    (key : String) (prev : List AnalysisResultDyn) (stale : Nat) :
    (∀ st ∈ initBatchSt texts key prev ::
        traceChunks genId now outs (chunksOf texts) 0 (initBatchSt texts key prev),
      st.progress.processed ≤ st.progress.total ∧
      st.progress.processed + st.progress.errors ≤ st.progress.total) ∧
    (∀ out, processBatch genId now outs texts key prev stale = some out →
      out.st.progress.processed ≤ out.st.progress.total ∧
      out.st.progress.processed + out.st.progress.errors ≤ out.st.progress.total) := by
  have hsum : (0 : Nat) + 0 + ((chunksOf texts).map List.length).sum
      ≤ (initBatchSt texts key prev).progress.total := by
    rw [chunksOf_length_sum]
    simp [initBatchSt]
  constructor
  · intro st hst
    rcases List.mem_cons.mp hst with rfl | h
    · exact ⟨by simp [initBatchSt], by simp [initBatchSt]⟩
    · exact traceChunks_invariant genId now outs (chunksOf texts) 0
        (initBatchSt texts key prev) (by simp [initBatchSt]) hsum st h
  · intro out hout
    unfold processBatch at hout
    split at hout
    · cases hout
    · injection hout with hout
      subst hout
      simp only
      exact runChunks_invariant genId now outs (chunksOf texts) 0
        (initBatchSt texts key prev) (by simp [initBatchSt]) hsum

/-- C2 witness: the amended invariant applied to the initial state of a
concrete one-text cycle. -/
theorem batchProgress_invariant_witness :
    (initBatchSt ["a"] "key" []).progress.processed
        ≤ (initBatchSt ["a"] "key" []).progress.total ∧
    (initBatchSt ["a"] "key" []).progress.processed
        + (initBatchSt ["a"] "key" []).progress.errors
      ≤ (initBatchSt ["a"] "key" []).progress.total :=
  (batchProgress_invariant (fun _ _ => "id") 0 (fun _ => Except.error rateLimitError)
      ["a"] "key" [] 0).1 (initBatchSt ["a"] "key" []) (List.mem_cons_self _ _)

/-! ## Claim C3: an auth failure halts the batch -/

theorem runChunks_auth_halt (genId : Nat → Nat → String) (now : Nat)
    (outs : Nat → Except GeminiError (List NormRec)) :
    ∀ (chunks : List (List String)) (i k : Nat) (st : BatchSt) (e : GeminiError),
      st.authErrorOccurred = false →
      (∀ j, j < i → isAuthOutcome (outs (k + j)) = false) →
      i < chunks.length →
      outs (k + i) = Except.error e →
      e.code = ErrCode.AUTH_ERROR →
      runChunks genId now outs chunks k st
          = chunkAuthSt e (runChunks genId now outs (chunks.take i) k st) ∧
      submittedChunks outs chunks k = (List.range (i + 1)).map (fun j => k + j) := by
  intro chunks
  induction chunks with
  | nil =>
      intro i k st e _ _ hi
      exact absurd hi (by simp)
  | cons c rest ih =>
      intro i k st e h0 hpre hi hout hcode
      cases i with
      | zero =>
          rw [Nat.add_zero] at hout
          constructor
          · simp [runChunks, h0, hout, hcode]
          · simp [submittedChunks, hout, hcode, List.range_succ]
      | succ i' =>
          have hj0 : isAuthOutcome (outs k) = false := by
            have h := hpre 0 (Nat.succ_pos i')
            rwa [Nat.add_zero] at h
          have hpre' : ∀ j, j < i' → isAuthOutcome (outs ((k + 1) + j)) = false := by
            intro j hj
            have h := hpre (j + 1) (Nat.succ_lt_succ hj)
            rwa [show k + (j + 1) = (k + 1) + j by omega] at h
          have hout' : outs ((k + 1) + i') = Except.error e := by
            rwa [show (k + 1) + i' = k + (i' + 1) by omega]
          have hi' : i' < rest.length := by
            simpa using Nat.lt_of_succ_lt_succ (by simpa using hi)
          rcases ho : outs k with e' | recs
          · have hcode' : ¬(e'.code = ErrCode.AUTH_ERROR) := by
              rw [ho] at hj0
              simpa [isAuthOutcome] using hj0
            obtain ⟨ih1, ih2⟩ := ih i' (k + 1) (chunkFailSt c st) e
              (by simpa [chunkFailSt] using h0) hpre' hi' hout' hcode
            constructor
            · rw [show runChunks genId now outs (c :: rest) k st
                  = runChunks genId now outs rest (k + 1) (chunkFailSt c st) by
                simp [runChunks, h0, ho, hcode']]
              rw [show (c :: rest).take (i' + 1) = c :: rest.take i' from rfl]
              rw [show runChunks genId now outs (c :: rest.take i') k st
                  = runChunks genId now outs (rest.take i') (k + 1) (chunkFailSt c st) by
                simp [runChunks, h0, ho, hcode']]
              exact ih1
            · rw [submittedChunks]
              simp only [ho]
              rw [if_neg hcode', ih2]
              exact (range_map_shift (i' + 1) k).symm
          · obtain ⟨ih1, ih2⟩ := ih i' (k + 1) (chunkSuccessSt genId now k c recs st) e
              (by simpa [chunkSuccessSt] using h0) hpre' hi' hout' hcode
            constructor
            · rw [show runChunks genId now outs (c :: rest) k st
                  = runChunks genId now outs rest (k + 1)
                      (chunkSuccessSt genId now k c recs st) by
                simp [runChunks, h0, ho]]
              rw [show (c :: rest).take (i' + 1) = c :: rest.take i' from rfl]
              rw [show runChunks genId now outs (c :: rest.take i') k st
                  = runChunks genId now outs (rest.take i') (k + 1)
                      (chunkSuccessSt genId now k c recs st) by
                simp [runChunks, h0, ho]]
              exact ih1
            · rw [submittedChunks]
              simp only [ho]
              rw [ih2]
              exact (range_map_shift (i' + 1) k).symm

/-- C3: if chunk i is the first to fail with an AUTH_ERROR-classified
error, the loop submits exactly chunks 0..i and no later chunk; the
stored credential is cleared; the critical error is recorded and a
terminal Authentication Failed panel with the AUTH_ERROR code is
reported; and the processed and error counters are exactly those reached
after the first i chunks — processed never advances again. -/
theorem processBatch_auth_halts (genId : Nat → Nat → String) (now : Nat)
    (outs : Nat → Except GeminiError (List NormRec)) (texts : List String)
    (key : String) (prev : List AnalysisResultDyn) (stale : Nat)
    (i : Nat) (e : GeminiError)
    (hkey : key ≠ "")
    (hi : i < (chunksOf texts).length)
    (hpre : ∀ j, j < i → isAuthOutcome (outs j) = false)
    (hout : outs i = Except.error e)
    (hcode : e.code = ErrCode.AUTH_ERROR) :
    submittedChunks outs (chunksOf texts) 0 = List.range (i + 1) ∧
    ∃ out, processBatch genId now outs texts key prev stale = some out ∧
      out.st.apiKey = "" ∧
      out.st.authErrorOccurred = true ∧
      out.st.criticalError = some e ∧
      out.st.progress.processed
        = (runChunks genId now outs ((chunksOf texts).take i) 0
            (initBatchSt texts key prev)).progress.processed ∧
      out.st.progress.errors
        = (runChunks genId now outs ((chunksOf texts).take i) 0
            (initBatchSt texts key prev)).progress.errors ∧
      out.errorDetails
        = some ⟨"Authentication Failed", e.message, e.solution,
            some e.code.str, e.status⟩ := by
  obtain ⟨h1, h2⟩ := runChunks_auth_halt genId now outs (chunksOf texts) i 0
    (initBatchSt texts key prev) e rfl
    (fun j hj => by simpa using hpre j hj) hi (by simpa using hout) hcode
  have hfin : batchFinalSt genId now outs texts key prev
      = chunkAuthSt e (runChunks genId now outs ((chunksOf texts).take i) 0
          (initBatchSt texts key prev)) := by
    unfold batchFinalSt
    exact h1
  constructor
  · rw [h2]
    simp
  · refine ⟨⟨{ batchFinalSt genId now outs texts key prev with
        progress := { (batchFinalSt genId now outs texts key prev).progress with
          isProcessing := false } },
      batchDetails (batchFinalSt genId now outs texts key prev) texts stale⟩,
      ?_, ?_, ?_, ?_, ?_, ?_, ?_⟩
    · unfold processBatch
      rw [if_neg hkey]
    · simp [hfin, chunkAuthSt]
    · simp [hfin, chunkAuthSt]
    · simp [hfin, chunkAuthSt]
    · simp [hfin, chunkAuthSt]
    · simp [hfin, chunkAuthSt]
    · simp [batchDetails, hfin, chunkAuthSt]

/-- C3 witness: the specification scenario — 20 texts form groups
0, 1, 2; the outcome of group 1 is an auth error, so only groups 0 and 1
are ever submitted. -/
theorem processBatch_auth_halts_witness :
    submittedChunks
        (fun k => if k = 1 then Except.error (invalidKeyError none) else Except.ok [])
        (chunksOf (List.replicate 20 "t")) 0
      = List.range 2 := by
  refine (processBatch_auth_halts (fun _ _ => "id") 0
    (fun k => if k = 1 then Except.error (invalidKeyError none) else Except.ok [])
    (List.replicate 20 "t") "key" [] 0 1 (invalidKeyError none)
    (by decide) (by decide) ?_ rfl rfl).1
  intro j hj
  have hj0 : j = 0 := by omega
  subst hj0
  rfl

end EmotiView
